import Mathlib

/-!
# EventHub reservation engine — verification development

Shallow embedding of the in-memory reservation engine of the EventHub
event-management system: `EventService` (resource/capacity store) and
`RSVPService` (reservation ledger), together with proofs of the capacity,
counting and uniqueness properties stated in the specification.

Modelling conventions:
* JS timestamps (`Date.now()`, `new Date()`) are modelled as a `Nat` value
  `now` passed to each operation; one instant per call.
* Event ids arrive already parsed (`parseInt(eventId)` is the identity on the
  modelled `Nat` ids).
* The string fields irrelevant to reservation accounting (`title`,
  `description`, `location`, `creator`, `creatorName`, `createdAt` of an
  event) are omitted; every field read or written by `createRSVP`,
  `cancelRSVP` and the capacity checks is kept.
* The result objects `{ success: false, error: msg }` are modelled as
  `Except RErr Unit`, with one `RErr` constructor per distinct error message.
-/

/-- A reservation record as built by `RSVPService.createRSVP`
(`{ id: Date.now(), userId, eventId, status: 'attending', createdAt }`).
The source never writes a `cancelledAt` property on any record (neither the
in-memory service nor the documented schema has one); the absent JS property
is modelled as an `Option` that is `none` at creation and is never assigned
by any operation. -/
structure RSVP where
  id : Nat
  userId : String
  eventId : Nat
  status : String
  createdAt : Nat
  cancelledAt : Option Nat := none
  deriving Repr, DecidableEq

/-- An event held by `EventService.events`, restricted to the fields the
reservation engine reads or writes. `currentAttendees` is an `Int` because
`cancelRSVP` decrements it without a lower-bound check. -/
structure Event where
  id : Nat
  date : Nat
  capacity : Nat
  currentAttendees : Int
  attendees : List String
  deriving Repr, DecidableEq

/-- The shared mutable state: `EventService.events` and `RSVPService.rsvps`. -/
structure SysState where
  events : List Event
  rsvps : List RSVP
  deriving Repr, DecidableEq

/-- Error kinds, one per distinct error message returned by the service:
`notFound` = "Event not found", `pastEvent` = "Cannot RSVP to past events",
`duplicate` = the already-reserved message, `full` = "Event is at full
capacity", `noActiveRSVP` = "No active RSVP found for this event". -/
inductive RErr where
  | notFound
  | pastEvent
  | duplicate
  | full
  | noActiveRSVP
  deriving Repr, DecidableEq

deriving instance DecidableEq for Except

/-- In-place mutation of the first element satisfying `p`, as performed by the
JS pattern `const x = list.find(p); if (x) mutate(x)` (equivalently
`findIndex` followed by assignment at that index). -/
def updateFirst (p : α → Bool) (f : α → α) : List α → List α
  | [] => []
  | x :: xs => if p x then f x :: xs else x :: updateFirst p f xs

/-- The lookup `this.events.find(e => e.id === parseInt(eventId))` used by
`EventService.getEventById` and by the RSVP mutations. -/
def findEvent (st : SysState) (eventId : Nat) : Option Event :=
  st.events.find? (fun e => e.id == eventId)

/-- The predicate of `RSVPService`: the record is an active ("attending")
reservation of `userId` on `eventId`. -/
def activeFor (userId : String) (eventId : Nat) (r : RSVP) : Bool :=
  r.userId == userId && r.eventId == eventId && r.status == "attending"

/-- The mutation `originalEvent.currentAttendees++;
originalEvent.attendees.push(userId)` performed by `createRSVP` on success. -/
def incAttendees (userId : String) (e : Event) : Event :=
  { e with currentAttendees := e.currentAttendees + 1,
           attendees := e.attendees ++ [userId] }

/-- The mutation `event.currentAttendees--;
event.attendees = event.attendees.filter(id => id !== userId)` performed by
`cancelRSVP` on success. -/
def decAttendees (userId : String) (e : Event) : Event :=
  { e with currentAttendees := e.currentAttendees - 1,
           attendees := e.attendees.filter (fun a => a != userId) }

/-- The mutation `rsvp.status = 'cancelled'` performed by `cancelRSVP` on
success; no other field of the record is written. -/
def markCancelled (r : RSVP) : RSVP :=
  { r with status := "cancelled" }

/-- The record pushed by `createRSVP`:
`{ id: Date.now(), userId, eventId, status: 'attending', createdAt }`. -/
def newRSVP (now : Nat) (eventId : Nat) (userId : String) : RSVP :=
  { id := now, userId := userId, eventId := eventId,
    status := "attending", createdAt := now }

/-- `RSVPService.createRSVP(eventId, userId)`: look the event up, reject past
events, duplicate active reservations and full events, otherwise push a new
`attending` record and increment the event counter (and push to its
`attendees` array). -/
def createRSVP (st : SysState) (now : Nat) (eventId : Nat) (userId : String) :
    Except RErr Unit × SysState :=
  match findEvent st eventId with
  | none => (Except.error RErr.notFound, st)
  | some event =>
    if event.date ≤ now then
      (Except.error RErr.pastEvent, st)
    else if (st.rsvps.find? (activeFor userId eventId)).isSome then
      (Except.error RErr.duplicate, st)
    else if event.currentAttendees ≥ (event.capacity : Int) then
      (Except.error RErr.full, st)
    else
      (Except.ok (),
        { events := updateFirst (fun e => e.id == eventId)
            (incAttendees userId) st.events,
          rsvps := st.rsvps ++ [newRSVP now eventId userId] })

/-- `RSVPService.cancelRSVP(eventId, userId)`: find the active reservation of
the user on the event (error if none), set its status to `cancelled`, and
decrement the event counter (if the event is still in the store), removing the
user from its `attendees` array. No other field of the record is written. -/
def cancelRSVP (st : SysState) (eventId : Nat) (userId : String) :
    Except RErr Unit × SysState :=
  match st.rsvps.find? (activeFor userId eventId) with
  | none => (Except.error RErr.noActiveRSVP, st)
  | some _ =>
    (Except.ok (),
      { rsvps := updateFirst (activeFor userId eventId) markCancelled st.rsvps,
        events := updateFirst (fun e => e.id == eventId)
          (decAttendees userId) st.events })

/-- `EventService.initializeDefaultEvents`: the two seeded demo events
(`currentAttendees` 23 and 12, empty `attendees`); their dates (tomorrow 14:00
and next week 18:30) are parameters. -/
def initializeDefaultEvents (tomorrow nextWeek : Nat) : List Event :=
  [ { id := 1, date := tomorrow, capacity := 150, currentAttendees := 23, attendees := [] },
    { id := 2, date := nextWeek, capacity := 50, currentAttendees := 12, attendees := [] } ]

/-- The initial state: `EventService` constructor seeds the two default
events, `RSVPService` constructor starts with an empty `rsvps` list. -/
def initState (tomorrow nextWeek : Nat) : SysState :=
  { events := initializeDefaultEvents tomorrow nextWeek, rsvps := [] }

/-- `EventService.createEvent` restricted to the reservation-relevant fields:
a fresh event enters the store with `currentAttendees: 0` and empty
`attendees` (field validation and sanitisation concern only the omitted
string fields). -/
def createEvent (st : SysState) (newId : Nat) (date : Nat) (capacity : Nat) : SysState :=
  { st with events := st.events ++
      [{ id := newId, date := date, capacity := capacity,
         currentAttendees := 0, attendees := [] }] }

/-- One reservation-engine call, for reasoning about arbitrary sequences of
`createRSVP` / `cancelRSVP` operations. -/
inductive Op where
  | create (now : Nat) (eventId : Nat) (userId : String)
  | cancel (eventId : Nat) (userId : String)

/-- The state after one operation (the result value is discarded). -/
def applyOp (st : SysState) : Op → SysState
  | Op.create now eventId userId => (createRSVP st now eventId userId).2
  | Op.cancel eventId userId => (cancelRSVP st eventId userId).2

/-- The state after a sequence of operations. -/
def run (st : SysState) (ops : List Op) : SysState := ops.foldl applyOp st

/-- The record is an Active ("attending") reservation on `eventId`
(by any user). -/
def isActiveOn (eventId : Nat) (r : RSVP) : Bool :=
  r.eventId == eventId && r.status == "attending"

/-- Number of reservation records on `eventId` with status Active
("attending") — the measure the specification compares `currentAttendees`
against. -/
def activeCount (st : SysState) (eventId : Nat) : Nat :=
  st.rsvps.countP (isActiveOn eventId)

/-- The event counter (`currentAttendees`) of the first stored event with the
given id, when present. -/
def reservedCount (st : SysState) (eventId : Nat) : Option Int :=
  (findEvent st eventId).map (fun e => e.currentAttendees)

/-- The duplicate-check of the service: `userId` holds an active reservation
on `eventId`. -/
def hasActive (st : SysState) (eventId : Nat) (userId : String) : Bool :=
  (st.rsvps.find? (activeFor userId eventId)).isSome

/-- Capacity invariant predicate: every stored event satisfies
`currentAttendees ≤ capacity`. -/
def capInv (st : SysState) : Prop :=
  ∀ e ∈ st.events, e.currentAttendees ≤ (e.capacity : Int)

instance : DecidablePred capInv := fun st =>
  inferInstanceAs (Decidable (∀ e ∈ st.events, e.currentAttendees ≤ (e.capacity : Int)))

/-- `success: true` of a service result. -/
def isOkResult : Except RErr Unit → Bool
  | Except.ok _ => true
  | Except.error _ => false

/-- N `createRSVP` calls against one event, one per user in the list,
executed in the given order (each call runs atomically — the service body has
no interleaving point — so an arbitrary concurrent schedule is some order of
the calls); returns every call's result and the final state. -/
def runCreates (now eventId : Nat) : SysState → List String → List (Except RErr Unit) × SysState
  | st, [] => ([], st)
  | st, u :: us =>
    let r := createRSVP st now eventId u
    let rest := runCreates now eventId r.2 us
    (r.1 :: rest.1, rest.2)

/-- The clock values of the `create` operations in the sequence are strictly
increasing, starting strictly above `t` (a strictly monotone `Date.now()`). -/
def freshClock : Nat → List Op → Prop
  | _, [] => True
  | t, Op.create now _ _ :: ops => t < now ∧ freshClock now ops
  | t, Op.cancel _ _ :: ops => freshClock t ops

/-- The clock value after the sequence (last `create` instant, or the start
value). -/
def endClock : Nat → List Op → Nat
  | t, [] => t
  | _, Op.create now _ _ :: ops => endClock now ops
  | t, Op.cancel _ _ :: ops => endClock t ops

/-- A concrete initial state for witnesses (default-event dates 100 and 200). -/
def exInit : SysState := initState 100 200

/-- The stored event `eventId` (when present) keeps its counter exactly
`base` above the number of Active records on it. -/
def countRel (st : SysState) (eventId : Nat) (base : Int) : Prop :=
  ∀ e, findEvent st eventId = some e →
    e.currentAttendees = base + (activeCount st eventId : Int)

/-! ## Lemmas about `updateFirst` -/

theorem updateFirst_of_find?_none {α : Type} {p : α → Bool} {f : α → α} {l : List α}
    (h : l.find? p = none) : updateFirst p f l = l := by
  induction l with
  | nil => rfl
  | cons x xs ih =>
    by_cases hp : p x
    · rw [List.find?_cons_of_pos _ hp] at h
      exact absurd h (by simp)
    · rw [List.find?_cons_of_neg _ hp] at h
      simp [updateFirst, hp, ih h]

theorem find?_updateFirst_self {α : Type} {p : α → Bool} {f : α → α}
    (hf : ∀ x, p (f x) = p x) (l : List α) :
    (updateFirst p f l).find? p = (l.find? p).map f := by
  induction l with
  | nil => rfl
  | cons x xs ih =>
    by_cases hp : p x
    · simp only [updateFirst, hp, if_true]
      rw [List.find?_cons_of_pos _ ((hf x).trans (by simp [hp])),
          List.find?_cons_of_pos _ hp]
      rfl
    · simp only [updateFirst, hp, if_false, Bool.false_eq_true]
      rw [List.find?_cons_of_neg _ (by simp [hp]), List.find?_cons_of_neg _ (by simp [hp])]
      exact ih

theorem find?_updateFirst_other {α : Type} {p q : α → Bool} {f : α → α}
    (h : ∀ x, p x = true → q x = false ∧ q (f x) = false) (l : List α) :
    (updateFirst p f l).find? q = l.find? q := by
  induction l with
  | nil => rfl
  | cons x xs ih =>
    by_cases hp : p x
    · obtain ⟨h1, h2⟩ := h x hp
      simp only [updateFirst, hp, if_true]
      rw [List.find?_cons_of_neg _ (by simp [h2]), List.find?_cons_of_neg _ (by simp [h1])]
    · simp only [updateFirst, hp, if_false, Bool.false_eq_true]
      by_cases hq : q x
      · rw [List.find?_cons_of_pos _ hq, List.find?_cons_of_pos _ hq]
      · rw [List.find?_cons_of_neg _ (by simp [hq]), List.find?_cons_of_neg _ (by simp [hq])]
        exact ih

theorem mem_updateFirst {α : Type} {p : α → Bool} {f : α → α} {l : List α} {x : α}
    (hx : x ∈ updateFirst p f l) : x ∈ l ∨ ∃ y, l.find? p = some y ∧ x = f y := by
  induction l with
  | nil => simp [updateFirst] at hx
  | cons a as ih =>
    by_cases hp : p a
    · simp only [updateFirst, hp, if_true, List.mem_cons] at hx
      rcases hx with rfl | hmem
      · exact Or.inr ⟨a, List.find?_cons_of_pos _ hp, rfl⟩
      · exact Or.inl (List.mem_cons_of_mem _ hmem)
    · simp only [updateFirst, hp, if_false, Bool.false_eq_true, List.mem_cons] at hx
      rcases hx with rfl | hmem
      · exact Or.inl (List.mem_cons_self _ _)
      · rcases ih hmem with hmem | ⟨y, hy, rfl⟩
        · exact Or.inl (List.mem_cons_of_mem _ hmem)
        · exact Or.inr ⟨y, by rw [List.find?_cons_of_neg _ hp]; exact hy, rfl⟩

theorem countP_updateFirst {α : Type} {p q : α → Bool} {f : α → α} {l : List α} {y : α}
    (h : l.find? p = some y) :
    (updateFirst p f l).countP q + (if q y then 1 else 0) =
      l.countP q + (if q (f y) then 1 else 0) := by
  induction l with
  | nil => simp at h
  | cons a as ih =>
    by_cases hp : p a
    · rw [List.find?_cons_of_pos _ hp] at h
      cases h
      simp only [updateFirst, hp, if_true, List.countP_cons]
      cases hq : q y <;> cases hqf : q (f y) <;> simp [hq, hqf, Nat.add_comm]
    · rw [List.find?_cons_of_neg _ hp] at h
      have := ih h
      simp only [updateFirst, hp, if_false, Bool.false_eq_true, List.countP_cons]
      cases hq : q a <;> simp <;> omega

/-! ## Capacity invariant (preservation by each operation) -/

theorem createRSVP_capInv (st : SysState) (now eventId : Nat) (userId : String)
    (h : capInv st) : capInv (createRSVP st now eventId userId).2 := by
  unfold createRSVP
  split
  · exact h
  next event hfind =>
    split
    · exact h
    · split
      · exact h
      · split
        · exact h
        next hfull =>
          intro e he
          rcases mem_updateFirst he with he | ⟨y, hy, rfl⟩
          · exact h e he
          · have hye : y = event := Option.some.inj (hy.symm.trans hfind)
            subst hye
            have := h y (List.mem_of_find?_eq_some hy)
            simp only [ge_iff_le, not_le] at hfull
            simp only [incAttendees]
            omega

theorem cancelRSVP_capInv (st : SysState) (eventId : Nat) (userId : String)
    (h : capInv st) : capInv (cancelRSVP st eventId userId).2 := by
  unfold cancelRSVP
  split
  · exact h
  · intro e he
    rcases mem_updateFirst he with he | ⟨y, hy, rfl⟩
    · exact h e he
    · have := h y (List.mem_of_find?_eq_some hy)
      simp only [decAttendees]
      omega

theorem applyOp_capInv (st : SysState) (op : Op) (h : capInv st) :
    capInv (applyOp st op) := by
  cases op with
  | create now eventId userId => exact createRSVP_capInv st now eventId userId h
  | cancel eventId userId => exact cancelRSVP_capInv st eventId userId h

theorem run_capInv (ops : List Op) : ∀ st : SysState, capInv st → capInv (run st ops) := by
  induction ops with
  | nil => exact fun st h => h
  | cons op ops ih => exact fun st h => ih (applyOp st op) (applyOp_capInv st op h)

theorem initState_capInv (tomorrow nextWeek : Nat) : capInv (initState tomorrow nextWeek) := by
  intro e he
  simp only [initState, initializeDefaultEvents, List.mem_cons, List.not_mem_nil,
    or_false] at he
  rcases he with rfl | rfl <;> norm_num

/-- C1: for every sequence of `createRSVP` / `cancelRSVP` calls applied to the
initial state, every stored event satisfies
`currentAttendees ≤ capacity` at every intermediate point (each prefix of
`ops` is itself a sequence, so the statement covers every point between two
operations). -/
theorem capacity_invariant (tomorrow nextWeek : Nat) (ops : List Op) :
    capInv (run (initState tomorrow nextWeek) ops) :=
  run_capInv ops (initState tomorrow nextWeek) (initState_capInv tomorrow nextWeek)


/-! ## Counting relation: counter = baseline + number of Active records -/

theorem countP_append_singleton {α : Type} (q : α → Bool) (l : List α) (r : α) :
    (l ++ [r]).countP q = l.countP q + (if q r then 1 else 0) := by
  simp [List.countP_append, List.countP_cons]

theorem createRSVP_countRel (st : SysState) (now opId : Nat) (userId : String)
    (eventId : Nat) (base : Int) (h : countRel st eventId base) :
    countRel (createRSVP st now opId userId).2 eventId base := by
  unfold createRSVP
  split
  · exact h
  next event hfind =>
    split
    · exact h
    split
    · exact h
    split
    · exact h
    intro e he
    simp only [findEvent] at he
    simp only [activeCount, countP_append_singleton]
    by_cases hid : opId = eventId
    · subst hid
      rw [find?_updateFirst_self (p := fun e => e.id == opId)
        (f := incAttendees userId) (fun x => rfl)] at he
      have hf2 : st.events.find? (fun e => e.id == opId) = some event := hfind
      rw [hf2] at he
      cases he
      have hbase := h event hfind
      simp only [activeCount] at hbase
      have hq : isActiveOn opId (newRSVP now opId userId) = true := by
        simp [isActiveOn, newRSVP]
      rw [hq]
      simp only [if_true]
      simp only [incAttendees]
      push_cast
      omega
    · have hother : ∀ x : Event, (x.id == opId) = true →
          (x.id == eventId) = false ∧ ((incAttendees userId x).id == eventId) = false := by
        intro x hx
        simp only [beq_iff_eq] at hx
        constructor <;> simp [incAttendees, beq_eq_false_iff_ne, hx, hid]
      rw [find?_updateFirst_other hother] at he
      have hbase := h e he
      simp only [activeCount] at hbase
      have hq : isActiveOn eventId (newRSVP now opId userId) = false := by
        simp [isActiveOn, newRSVP, hid]
      rw [hq]
      simpa using hbase

theorem cancelRSVP_countRel (st : SysState) (opId : Nat) (userId : String)
    (eventId : Nat) (base : Int) (h : countRel st eventId base) :
    countRel (cancelRSVP st opId userId).2 eventId base := by
  unfold cancelRSVP
  split
  · exact h
  next y hy =>
    have hact : activeFor userId opId y = true := List.find?_some hy
    simp only [activeFor, Bool.and_eq_true, beq_iff_eq] at hact
    obtain ⟨⟨hyu, hye⟩, hys⟩ := hact
    intro e he
    simp only [findEvent] at he
    simp only [activeCount]
    have hcnt := countP_updateFirst (q := isActiveOn eventId) (f := markCancelled) hy
    by_cases hid : opId = eventId
    · subst hid
      have hqy : isActiveOn opId y = true := by simp [isActiveOn, hye, hys]
      have hqfy : isActiveOn opId (markCancelled y) = false := by
        simp [isActiveOn, markCancelled]
      rw [hqy, hqfy] at hcnt
      norm_num at hcnt
      cases hev : st.events.find? (fun e => e.id == opId) with
      | none =>
        rw [updateFirst_of_find?_none hev] at he
        rw [hev] at he
        cases he
      | some ev =>
        rw [find?_updateFirst_self (p := fun e => e.id == opId)
          (f := decAttendees userId) (fun x => rfl)] at he
        rw [hev] at he
        cases he
        have hbase := h ev hev
        simp only [activeCount] at hbase
        simp only [decAttendees]
        omega
    · have hqy : isActiveOn eventId y = false := by
        simp [isActiveOn, hye, hid]
      have hqfy : isActiveOn eventId (markCancelled y) = false := by
        simp [isActiveOn, markCancelled, hye, hid]
      rw [hqy, hqfy] at hcnt
      norm_num at hcnt
      have hother : ∀ x : Event, (x.id == opId) = true →
          (x.id == eventId) = false ∧ ((decAttendees userId x).id == eventId) = false := by
        intro x hx
        simp only [beq_iff_eq] at hx
        constructor <;> simp [decAttendees, beq_eq_false_iff_ne, hx, hid]
      rw [find?_updateFirst_other hother] at he
      have hbase := h e he
      simp only [activeCount] at hbase
      omega

theorem applyOp_countRel (st : SysState) (op : Op) (eventId : Nat) (base : Int)
    (h : countRel st eventId base) : countRel (applyOp st op) eventId base := by
  cases op with
  | create now opId userId => exact createRSVP_countRel st now opId userId eventId base h
  | cancel opId userId => exact cancelRSVP_countRel st opId userId eventId base h

theorem run_countRel (ops : List Op) (eventId : Nat) (base : Int) :
    ∀ st : SysState, countRel st eventId base → countRel (run st ops) eventId base := by
  induction ops with
  | nil => exact fun st h => h
  | cons op ops ih => exact fun st h => ih (applyOp st op) (applyOp_countRel st op eventId base h)

/-- C2 counterexample: at the initial state (before any operation) the claimed
equality `currentAttendees = number of Active records` already fails — the
seeded default events carry `currentAttendees` 23 and 12 while the RSVP
ledger is empty. -/
theorem counter_ne_activeCount_initially :
    ∃ e ∈ (initState 100 200).events,
      e.currentAttendees ≠ (activeCount (initState 100 200) e.id : Int) := by
  decide

/-- C2 amended: at every observable point, the stored event's
`currentAttendees` equals a fixed baseline plus the number of its reservation
records with status Active, where the baseline is the offset at the start of
the operation sequence; the spec's plain equality (baseline 0) holds for
events that enter the store with a zero counter and no records, and fails for
the two seeded default events (baselines 23 and 12). -/
theorem counter_eq_base_plus_active (st : SysState) (eventId : Nat) (base : Int)
    (h : countRel st eventId base) (ops : List Op) :
    countRel (run st ops) eventId base :=
  run_countRel ops eventId base st h

theorem counter_eq_base_plus_active_witness :
    countRel (initState 100 200) 1 23 ∧
      countRel (run (initState 100 200) [Op.create 5 1 "A", Op.cancel 1 "A"]) 1 23 := by
  have h : countRel (initState 100 200) 1 23 := by
    intro e he
    rw [show findEvent (initState 100 200) 1 =
        some { id := 1, date := 100, capacity := 150, currentAttendees := 23,
               attendees := [] } from rfl] at he
    cases he
    decide
  exact ⟨h, counter_eq_base_plus_active (initState 100 200) 1 23 h
    [Op.create 5 1 "A", Op.cancel 1 "A"]⟩

/-- C10: once an event is in the store with no Active records on it (as after
`createEvent`, which seeds `currentAttendees: 0`), no sequence of
`createRSVP` / `cancelRSVP` calls ever brings its counter below the value it
entered with: although `cancelRSVP` decrements without checking positivity,
every successful cancel consumes an `attending` record whose creation
performed the matching increment. -/
theorem counter_never_below_entry (st : SysState) (eventId : Nat) (entry : Event)
    (h0 : findEvent st eventId = some entry) (ha : activeCount st eventId = 0)
    (ops : List Op) (e : Event) (he : findEvent (run st ops) eventId = some e) :
    entry.currentAttendees ≤ e.currentAttendees := by
  have hrel : countRel st eventId entry.currentAttendees := by
    intro e' he'
    rw [h0] at he'
    cases he'
    rw [ha]
    simp
  have hfin := run_countRel ops eventId entry.currentAttendees st hrel e he
  have hnn : (0 : Int) ≤ (activeCount (run st ops) eventId : Int) :=
    Int.natCast_nonneg _
  omega

theorem counter_never_below_entry_witness :
    findEvent (createEvent (initState 100 200) 3 400 10) 3 =
      some { id := 3, date := 400, capacity := 10, currentAttendees := 0,
             attendees := [] } ∧
    activeCount (createEvent (initState 100 200) 3 400 10) 3 = 0 ∧
    ({ id := 3, date := 400, capacity := 10, currentAttendees := 0,
       attendees := [] } : Event).currentAttendees ≤
      ({ id := 3, date := 400, capacity := 10, currentAttendees := 1,
         attendees := ["A"] } : Event).currentAttendees :=
  ⟨by decide, by decide,
    counter_never_below_entry (createEvent (initState 100 200) 3 400 10) 3
      { id := 3, date := 400, capacity := 10, currentAttendees := 0, attendees := [] }
      (by decide) (by decide) [Op.create 5 3 "A"]
      { id := 3, date := 400, capacity := 10, currentAttendees := 1, attendees := ["A"] }
      (by decide)⟩

/-! ## Evaluation lemmas for single calls -/

theorem createRSVP_ok (st : SysState) (now eventId : Nat) (userId : String) (e : Event)
    (hfind : findEvent st eventId = some e) (hfut : now < e.date)
    (hdup : st.rsvps.find? (activeFor userId eventId) = none)
    (hroom : e.currentAttendees < (e.capacity : Int)) :
    createRSVP st now eventId userId = (Except.ok (),
      { events := updateFirst (fun x => x.id == eventId) (incAttendees userId) st.events,
        rsvps := st.rsvps ++ [newRSVP now eventId userId] }) := by
  unfold createRSVP
  simp only [hfind, hdup, Option.isSome_none, Bool.false_eq_true, if_false]
  rw [if_neg (by omega : ¬ e.date ≤ now),
    if_neg (by omega : ¬ e.currentAttendees ≥ (e.capacity : Int))]

theorem createRSVP_full (st : SysState) (now eventId : Nat) (userId : String) (e : Event)
    (hfind : findEvent st eventId = some e) (hfut : now < e.date)
    (hdup : st.rsvps.find? (activeFor userId eventId) = none)
    (hfull : (e.capacity : Int) ≤ e.currentAttendees) :
    createRSVP st now eventId userId = (Except.error RErr.full, st) := by
  unfold createRSVP
  simp only [hfind, hdup, Option.isSome_none, Bool.false_eq_true, if_false]
  rw [if_neg (by omega : ¬ e.date ≤ now),
    if_pos (by omega : e.currentAttendees ≥ (e.capacity : Int))]

theorem cancelRSVP_ok (st : SysState) (eventId : Nat) (userId : String) (y : RSVP)
    (hy : st.rsvps.find? (activeFor userId eventId) = some y) :
    cancelRSVP st eventId userId = (Except.ok (),
      { rsvps := updateFirst (activeFor userId eventId) markCancelled st.rsvps,
        events := updateFirst (fun x => x.id == eventId) (decAttendees userId) st.events }) := by
  unfold cancelRSVP
  simp only [hy]

theorem mem_updateFirst_of_find? {α : Type} {p : α → Bool} {f : α → α} {l : List α} {y : α}
    (h : l.find? p = some y) : f y ∈ updateFirst p f l := by
  induction l with
  | nil => simp at h
  | cons a as ih =>
    by_cases hp : p a
    · rw [List.find?_cons_of_pos _ hp] at h
      cases h
      simp [updateFirst, hp]
    · rw [List.find?_cons_of_neg _ hp] at h
      simp [updateFirst, hp, ih h]

theorem map_updateFirst {α β : Type} {p : α → Bool} {f : α → α} (g : α → β)
    (hg : ∀ x, g (f x) = g x) (l : List α) :
    (updateFirst p f l).map g = l.map g := by
  induction l with
  | nil => rfl
  | cons a as ih =>
    by_cases hp : p a
    · simp [updateFirst, hp, hg]
    · simp [updateFirst, hp, ih]

/-- C4: if the actor already holds an Active reservation on the event, and
the event is in the store with a future date (the checks the service runs
first), a second `createRSVP` call by the same actor returns the
duplicate-reservation error and returns the state — `reservedCount`
included — unchanged. -/
theorem duplicate_rsvp_rejected (st : SysState) (now eventId : Nat) (userId : String)
    (e : Event) (hfind : findEvent st eventId = some e) (hfut : now < e.date)
    (hdup : hasActive st eventId userId = true) :
    createRSVP st now eventId userId = (Except.error RErr.duplicate, st) := by
  unfold createRSVP
  have hd : (st.rsvps.find? (activeFor userId eventId)).isSome = true := hdup
  simp only [hfind]
  rw [if_neg (by omega : ¬ e.date ≤ now), hd, if_pos rfl]

theorem duplicate_rsvp_rejected_witness :
    findEvent (run exInit [Op.create 5 1 "A"]) 1 =
      some { id := 1, date := 100, capacity := 150, currentAttendees := 24,
             attendees := ["A"] } ∧
    (6 : Nat) < 100 ∧
    hasActive (run exInit [Op.create 5 1 "A"]) 1 "A" = true ∧
    createRSVP (run exInit [Op.create 5 1 "A"]) 6 1 "A" =
      (Except.error RErr.duplicate, run exInit [Op.create 5 1 "A"]) :=
  ⟨by decide, by decide, by decide,
    duplicate_rsvp_rejected (run exInit [Op.create 5 1 "A"]) 6 1 "A"
      { id := 1, date := 100, capacity := 150, currentAttendees := 24,
        attendees := ["A"] }
      (by decide) (by decide) (by decide)⟩

/-- C5: `createRSVP` appends exactly one new Active record and increments the
event's counter by exactly 1 iff it returns success; on every error return
(not found, past event, duplicate, full) the state — record set and
counters — is exactly the pre-call state. -/
theorem createRSVP_frame (st : SysState) (now eventId : Nat) (userId : String) :
    if isOkResult (createRSVP st now eventId userId).1 then
      (createRSVP st now eventId userId).2.rsvps =
          st.rsvps ++ [newRSVP now eventId userId] ∧
        reservedCount (createRSVP st now eventId userId).2 eventId =
          (reservedCount st eventId).map (fun c => c + 1)
    else (createRSVP st now eventId userId).2 = st := by
  unfold createRSVP
  split
  · simp [isOkResult]
  next e hfind =>
    split
    · simp [isOkResult]
    split
    · simp [isOkResult]
    split
    · simp [isOkResult]
    · simp only [isOkResult, if_true]
      constructor
      · trivial
      · simp only [reservedCount, findEvent]
        rw [find?_updateFirst_self (p := fun x => x.id == eventId)
          (f := incAttendees userId) (fun x => rfl)]
        rw [show st.events.find? (fun x => x.id == eventId) = some e from hfind]
        simp [incAttendees]

/-- C7: cancelling when the actor has no Active reservation on the event
(nonexistent or already cancelled) returns the no-active-RSVP error and
returns the state — records and counters — unchanged; in particular the
counter is never decremented a second time. -/
theorem cancel_without_active_rejected (st : SysState) (eventId : Nat) (userId : String)
    (h : hasActive st eventId userId = false) :
    cancelRSVP st eventId userId = (Except.error RErr.noActiveRSVP, st) := by
  unfold cancelRSVP
  cases hfind : st.rsvps.find? (activeFor userId eventId) with
  | none => rfl
  | some y =>
    have hcontra : hasActive st eventId userId = true := by
      simp [hasActive, hfind]
    rw [h] at hcontra
    cases hcontra

theorem cancel_without_active_rejected_witness :
    hasActive (run exInit [Op.create 5 1 "A", Op.cancel 1 "A"]) 1 "A" = false ∧
    cancelRSVP (run exInit [Op.create 5 1 "A", Op.cancel 1 "A"]) 1 "A" =
      (Except.error RErr.noActiveRSVP,
        run exInit [Op.create 5 1 "A", Op.cancel 1 "A"]) :=
  ⟨by decide,
    cancel_without_active_rejected (run exInit [Op.create 5 1 "A", Op.cancel 1 "A"])
      1 "A" (by decide)⟩

/-- C6 counterexample: a concrete successful cancellation: the record's
status becomes "cancelled" and the call succeeds, yet the resulting record is
exactly `{ id := 5, …, status := "cancelled", cancelledAt := none }` — no
`cancelledAt` timestamp is stamped, refuting "cancelledAt is set iff status =
Cancelled". -/
theorem cancel_does_not_stamp_cancelledAt :
    (cancelRSVP (run exInit [Op.create 5 1 "A"]) 1 "A").1 = Except.ok () ∧
    (cancelRSVP (run exInit [Op.create 5 1 "A"]) 1 "A").2.rsvps =
      [{ id := 5, userId := "A", eventId := 1, status := "cancelled",
         createdAt := 5, cancelledAt := none }] := by
  decide

/-- C6 amended: a successful `cancelRSVP` on the Active reservation of
(userId, eventId) flips exactly that record's status to "cancelled", leaves
every other field of the record unchanged — in particular the `cancelledAt`
option is NOT stamped (the source never assigns it) — and decrements the
stored event's counter by exactly 1, in the same call. -/
theorem cancel_effect (st : SysState) (eventId : Nat) (userId : String)
    (y : RSVP) (e : Event)
    (hy : st.rsvps.find? (activeFor userId eventId) = some y)
    (he : findEvent st eventId = some e) :
    (cancelRSVP st eventId userId).1 = Except.ok () ∧
    (cancelRSVP st eventId userId).2.rsvps =
      updateFirst (activeFor userId eventId) markCancelled st.rsvps ∧
    markCancelled y ∈ (cancelRSVP st eventId userId).2.rsvps ∧
    (markCancelled y).status = "cancelled" ∧
    (markCancelled y).cancelledAt = y.cancelledAt ∧
    (markCancelled y).createdAt = y.createdAt ∧
    reservedCount (cancelRSVP st eventId userId).2 eventId =
      some (e.currentAttendees - 1) := by
  rw [cancelRSVP_ok st eventId userId y hy]
  refine ⟨rfl, rfl, mem_updateFirst_of_find? hy, rfl, rfl, rfl, ?_⟩
  simp only [reservedCount, findEvent]
  rw [find?_updateFirst_self (p := fun x => x.id == eventId)
    (f := decAttendees userId) (fun x => rfl)]
  rw [show st.events.find? (fun x => x.id == eventId) = some e from he]
  simp [decAttendees]

theorem cancel_effect_witness :
    (cancelRSVP (run exInit [Op.create 5 1 "A"]) 1 "A").1 = Except.ok () ∧
    reservedCount (cancelRSVP (run exInit [Op.create 5 1 "A"]) 1 "A").2 1 =
      some (24 - 1) :=
  ⟨(cancel_effect (run exInit [Op.create 5 1 "A"]) 1 "A"
      { id := 5, userId := "A", eventId := 1, status := "attending", createdAt := 5 }
      { id := 1, date := 100, capacity := 150, currentAttendees := 24,
        attendees := ["A"] }
      (by decide) (by decide)).1,
   (cancel_effect (run exInit [Op.create 5 1 "A"]) 1 "A"
      { id := 5, userId := "A", eventId := 1, status := "attending", createdAt := 5 }
      { id := 1, date := 100, capacity := 150, currentAttendees := 24,
        attendees := ["A"] }
      (by decide) (by decide)).2.2.2.2.2.2⟩

/-- C8: after the actor's successful cancellation of their unique Active
reservation, an immediate `createRSVP` by the same actor on the same (future,
within-capacity) event succeeds: a fresh Active record is appended while the
old record remains, now cancelled, and the counter after the cancel+recreate
pair equals its value before the pair. -/
theorem cancel_then_recreate (st : SysState) (now eventId : Nat) (userId : String)
    (e : Event) (hfind : findEvent st eventId = some e) (hfut : now < e.date)
    (huniq : st.rsvps.countP (activeFor userId eventId) = 1)
    (hcap : e.currentAttendees ≤ (e.capacity : Int)) :
    ∃ st1, cancelRSVP st eventId userId = (Except.ok (), st1) ∧
      (createRSVP st1 now eventId userId).1 = Except.ok () ∧
      (createRSVP st1 now eventId userId).2.rsvps =
        updateFirst (activeFor userId eventId) markCancelled st.rsvps ++
          [newRSVP now eventId userId] ∧
      reservedCount (createRSVP st1 now eventId userId).2 eventId =
        some e.currentAttendees := by
  obtain ⟨y, hy⟩ : ∃ y, st.rsvps.find? (activeFor userId eventId) = some y := by
    rw [← Option.isSome_iff_exists, List.find?_isSome, ← List.countP_pos_iff]
    omega
  have hcancel := cancelRSVP_ok st eventId userId y hy
  have hpy : activeFor userId eventId y = true := List.find?_some hy
  have hpfy : activeFor userId eventId (markCancelled y) = false := by
    simp [activeFor, markCancelled]
  have hcnt := countP_updateFirst (q := activeFor userId eventId) (f := markCancelled) hy
  rw [hpy, hpfy] at hcnt
  norm_num at hcnt
  have hdup1 : (updateFirst (activeFor userId eventId) markCancelled st.rsvps).find?
      (activeFor userId eventId) = none := by
    rw [List.find?_eq_none]
    intro x hx
    have h0 : (updateFirst (activeFor userId eventId) markCancelled st.rsvps).countP
        (activeFor userId eventId) = 0 := by omega
    exact fun hpx => (List.countP_eq_zero.mp h0 x hx) hpx
  have hfind1 : (updateFirst (fun x => x.id == eventId) (decAttendees userId)
      st.events).find? (fun x => x.id == eventId) = some (decAttendees userId e) := by
    rw [find?_updateFirst_self (p := fun x => x.id == eventId)
      (f := decAttendees userId) (fun x => rfl)]
    rw [show st.events.find? (fun x => x.id == eventId) = some e from hfind]
    rfl
  have hcreate := createRSVP_ok
    { rsvps := updateFirst (activeFor userId eventId) markCancelled st.rsvps,
      events := updateFirst (fun x => x.id == eventId) (decAttendees userId) st.events }
    now eventId userId (decAttendees userId e) hfind1
    (by simpa [decAttendees] using hfut) hdup1
    (by simp only [decAttendees]; omega)
  refine ⟨_, hcancel, ?_, ?_, ?_⟩
  · rw [hcreate]
  · rw [hcreate]
  · rw [hcreate]
    simp only [reservedCount, findEvent]
    rw [find?_updateFirst_self (p := fun x => x.id == eventId)
      (f := incAttendees userId) (fun x => rfl)]
    rw [hfind1]
    simp [incAttendees, decAttendees]

theorem cancel_then_recreate_witness :
    findEvent exInit 2 = some
      { id := 2, date := 200, capacity := 50, currentAttendees := 12, attendees := [] } ∧
    (run exInit [Op.create 5 2 "B"]).rsvps.countP (activeFor "B" 2) = 1 ∧
    (∃ st1, cancelRSVP (run exInit [Op.create 5 2 "B"]) 2 "B" = (Except.ok (), st1) ∧
      (createRSVP st1 7 2 "B").1 = Except.ok () ∧
      (createRSVP st1 7 2 "B").2.rsvps =
        updateFirst (activeFor "B" 2) markCancelled
          (run exInit [Op.create 5 2 "B"]).rsvps ++ [newRSVP 7 2 "B"] ∧
      reservedCount (createRSVP st1 7 2 "B").2 2 = some 13) :=
  ⟨by decide, by decide,
    cancel_then_recreate (run exInit [Op.create 5 2 "B"]) 7 2 "B"
      { id := 2, date := 200, capacity := 50, currentAttendees := 13, attendees := ["B"] }
      (by decide) (by decide) (by decide) (by decide)⟩

/-- C9 counterexample: two same-instant creations by different actors (both
admitted) produce two records whose ids are both `Date.now() = 5` — the
ledger then holds two distinct records sharing one reservation id. -/
theorem duplicate_reservation_ids :
    (run exInit [Op.create 5 1 "A", Op.create 5 1 "B"]).rsvps.length = 2 ∧
    (run exInit [Op.create 5 1 "A", Op.create 5 1 "B"]).rsvps.map
      (fun r => r.id) = [5, 5] ∧
    ¬ ((run exInit [Op.create 5 1 "A", Op.create 5 1 "B"]).rsvps.map
      (fun r => r.id)).Nodup := by
  decide

theorem createRSVP_rsvps_cases (st : SysState) (now eventId : Nat) (userId : String) :
    (createRSVP st now eventId userId).2.rsvps = st.rsvps ∨
    (createRSVP st now eventId userId).2.rsvps =
      st.rsvps ++ [newRSVP now eventId userId] := by
  unfold createRSVP
  split
  · exact Or.inl rfl
  · split
    · exact Or.inl rfl
    split
    · exact Or.inl rfl
    split
    · exact Or.inl rfl
    exact Or.inr rfl

theorem cancelRSVP_rsvps_cases (st : SysState) (eventId : Nat) (userId : String) :
    (cancelRSVP st eventId userId).2.rsvps = st.rsvps ∨
    (cancelRSVP st eventId userId).2.rsvps =
      updateFirst (activeFor userId eventId) markCancelled st.rsvps := by
  unfold cancelRSVP
  split
  · exact Or.inl rfl
  · exact Or.inr rfl

/-- C9 amended: reservation ids are pairwise distinct for every operation
sequence whose creation instants are strictly increasing and start above
every id already in the ledger (a strictly monotone `Date.now()`); because
the id is the bare `Date.now()` value, two creations at the same instant
violate the claim (see the counterexample). -/
theorem rsvp_ids_nodup_of_increasing_clock (ops : List Op) :
    ∀ (st : SysState) (t : Nat),
      (∀ r ∈ st.rsvps, r.id ≤ t) →
      ((st.rsvps.map (fun r => r.id)).Nodup) →
      freshClock t ops →
      ((run st ops).rsvps.map (fun r => r.id)).Nodup ∧
      ∀ r ∈ (run st ops).rsvps, r.id ≤ endClock t ops := by
  induction ops with
  | nil => exact fun st t hle hnd _ => ⟨hnd, hle⟩
  | cons op ops ih =>
    intro st t hle hnd hfc
    cases op with
    | create now eventId userId =>
      obtain ⟨hlt, hfc⟩ := hfc
      rcases createRSVP_rsvps_cases st now eventId userId with hc | hc
      · have h1 : ∀ r ∈ (createRSVP st now eventId userId).2.rsvps, r.id ≤ now := by
          rw [hc]
          exact fun r hr => le_of_lt (lt_of_le_of_lt (hle r hr) hlt)
        have h2 : (((createRSVP st now eventId userId).2.rsvps.map
            (fun r => r.id)).Nodup) := by
          rw [hc]
          exact hnd
        exact ih _ now h1 h2 hfc
      · have h1 : ∀ r ∈ (createRSVP st now eventId userId).2.rsvps, r.id ≤ now := by
          rw [hc]
          intro r hr
          rcases List.mem_append.mp hr with hr | hr
          · exact le_of_lt (lt_of_le_of_lt (hle r hr) hlt)
          · rw [List.mem_singleton] at hr
            subst hr
            exact le_refl now
        have h2 : (((createRSVP st now eventId userId).2.rsvps.map
            (fun r => r.id)).Nodup) := by
          rw [hc, List.map_append]
          simp only [List.map_cons, List.map_nil, newRSVP]
          refine List.Nodup.append hnd (by simp) ?_
          rw [List.disjoint_singleton]
          intro hmem
          simp only [List.mem_map] at hmem
          obtain ⟨r, hr, hid⟩ := hmem
          have := hle r hr
          omega
        exact ih _ now h1 h2 hfc
    | cancel eventId userId =>
      rcases cancelRSVP_rsvps_cases st eventId userId with hc | hc
      · have h1 : ∀ r ∈ (cancelRSVP st eventId userId).2.rsvps, r.id ≤ t := by
          rw [hc]
          exact hle
        have h2 : (((cancelRSVP st eventId userId).2.rsvps.map
            (fun r => r.id)).Nodup) := by
          rw [hc]
          exact hnd
        exact ih _ t h1 h2 hfc
      · have h1 : ∀ r ∈ (cancelRSVP st eventId userId).2.rsvps, r.id ≤ t := by
          rw [hc]
          intro r hr
          rcases mem_updateFirst hr with hr | ⟨z, hz, rfl⟩
          · exact hle r hr
          · exact hle z (List.mem_of_find?_eq_some hz)
        have h2 : (((cancelRSVP st eventId userId).2.rsvps.map
            (fun r => r.id)).Nodup) := by
          rw [hc, map_updateFirst (p := activeFor userId eventId)
            (f := markCancelled) (fun r => r.id) (fun x => rfl)]
          exact hnd
        exact ih _ t h1 h2 hfc

theorem rsvp_ids_nodup_of_increasing_clock_witness :
    (∀ r ∈ exInit.rsvps, r.id ≤ 0) ∧
    ((exInit.rsvps.map (fun r => r.id)).Nodup) ∧
    ((run exInit [Op.create 5 1 "A", Op.create 7 1 "B"]).rsvps.map
      (fun r => r.id)).Nodup :=
  ⟨by decide, by decide,
    (rsvp_ids_nodup_of_increasing_clock [Op.create 5 1 "A", Op.create 7 1 "B"]
      exInit 0 (by decide) (by decide) (by simp [freshClock])).1⟩

theorem runCreates_spec (now eventId : Nat) (us : List String) :
    ∀ (st : SysState) (e : Event),
      findEvent st eventId = some e →
      now < e.date →
      us.Nodup →
      (∀ u ∈ us, ∀ r ∈ st.rsvps, activeFor u eventId r = false) →
      (runCreates now eventId st us).1.countP isOkResult =
          min us.length ((e.capacity : Int) - e.currentAttendees).toNat ∧
      (runCreates now eventId st us).1.countP
          (fun x => x == Except.error RErr.full) =
          us.length - ((e.capacity : Int) - e.currentAttendees).toNat ∧
      ∃ e2, findEvent (runCreates now eventId st us).2 eventId = some e2 ∧
        e2.capacity = e.capacity ∧ e2.date = e.date ∧
        e2.currentAttendees = e.currentAttendees +
          ((min us.length ((e.capacity : Int) - e.currentAttendees).toNat : Nat) : Int) := by
  induction us with
  | nil =>
    intro st e hfind hfut hnd hfresh
    refine ⟨by simp [runCreates], by simp [runCreates], e, ?_, rfl, rfl, by simp⟩
    simpa [runCreates] using hfind
  | cons u us ih =>
    intro st e hfind hfut hnd hfresh
    rw [List.nodup_cons] at hnd
    obtain ⟨hu, hnd⟩ := hnd
    have hdup : st.rsvps.find? (activeFor u eventId) = none := by
      rw [List.find?_eq_none]
      intro r hr
      simp [hfresh u (List.mem_cons_self u us) r hr]
    by_cases hroom : e.currentAttendees < (e.capacity : Int)
    · have hstep := createRSVP_ok st now eventId u e hfind hfut hdup hroom
      have hfind2 : findEvent (createRSVP st now eventId u).2 eventId =
          some (incAttendees u e) := by
        rw [hstep]
        simp only [findEvent]
        rw [find?_updateFirst_self (p := fun x => x.id == eventId)
          (f := incAttendees u) (fun x => rfl)]
        rw [show st.events.find? (fun x => x.id == eventId) = some e from hfind]
        rfl
      have hfresh2 : ∀ v ∈ us, ∀ r ∈ (createRSVP st now eventId u).2.rsvps,
          activeFor v eventId r = false := by
        intro v hv r hr
        rw [hstep] at hr
        rcases List.mem_append.mp hr with hr | hr
        · exact hfresh v (List.mem_cons_of_mem u hv) r hr
        · rw [List.mem_singleton] at hr
          subst hr
          have huv : u ≠ v := fun h => hu (h ▸ hv)
          simp [activeFor, newRSVP, huv]
      obtain ⟨ihok, ihfull, e2, ihfind, ihcap, ihdate, ihcnt⟩ :=
        ih (createRSVP st now eventId u).2 (incAttendees u e) hfind2 hfut hnd hfresh2
      have hc1 : (incAttendees u e).currentAttendees = e.currentAttendees + 1 := rfl
      have hc2 : (incAttendees u e).capacity = e.capacity := rfl
      have hc3 : (incAttendees u e).date = e.date := rfl
      rw [hc1, hc2] at ihok ihfull ihcnt
      rw [hc2] at ihcap
      rw [hc3] at ihdate
      simp only [runCreates]
      refine ⟨?_, ?_, e2, ihfind, ihcap, ihdate, ?_⟩
      · rw [hstep] at ihok ⊢
        simp [List.countP_cons, isOkResult, ihok]
        omega
      · rw [hstep] at ihfull ⊢
        simp [List.countP_cons, ihfull]
        omega
      · rw [ihcnt]
        simp only [List.length_cons]
        push_cast
        omega
    · have hstep := createRSVP_full st now eventId u e hfind hfut hdup (by omega)
      obtain ⟨ihok, ihfull, e2, ihfind, ihcap, ihdate, ihcnt⟩ :=
        ih st e hfind hfut hnd (fun v hv => hfresh v (List.mem_cons_of_mem u hv))
      have hc0 : ((e.capacity : Int) - e.currentAttendees).toNat = 0 := by omega
      simp only [runCreates]
      refine ⟨?_, ?_, e2, ?_, ihcap, ihdate, ?_⟩
      · rw [hstep]
        simp [List.countP_cons, isOkResult, ihok, hc0]
      · rw [hstep]
        simp [List.countP_cons, ihfull, hc0]
      · rw [hstep]
        exact ihfind
      · rw [ihcnt]
        simp [hc0]

/-- C3: N `createRSVP` calls by N distinct fresh actors against one event with
K remaining slots (K < N), executed in an arbitrary order — each call body is
atomic (it has no interleaving point), so every concurrent schedule is some
order of the calls — produce exactly K successes; the other N−K calls all
fail with the full-capacity error, no update is lost, and the final counter
equals the capacity. -/
theorem concurrent_creates_fill_to_capacity (st : SysState) (now eventId : Nat)
    (us : List String) (e : Event)
    (hfind : findEvent st eventId = some e) (hfut : now < e.date)
    (hnd : us.Nodup)
    (hfresh : ∀ u ∈ us, ∀ r ∈ st.rsvps, activeFor u eventId r = false)
    (hcap : e.currentAttendees ≤ (e.capacity : Int))
    (hK : ((e.capacity : Int) - e.currentAttendees).toNat < us.length) :
    (runCreates now eventId st us).1.countP isOkResult =
      ((e.capacity : Int) - e.currentAttendees).toNat ∧
    (runCreates now eventId st us).1.countP (fun x => x == Except.error RErr.full) =
      us.length - ((e.capacity : Int) - e.currentAttendees).toNat ∧
    reservedCount (runCreates now eventId st us).2 eventId = some (e.capacity : Int) := by
  obtain ⟨hok, hfull, e2, hfind2, hcap2, hdate2, hcnt2⟩ :=
    runCreates_spec now eventId us st e hfind hfut hnd hfresh
  refine ⟨?_, hfull, ?_⟩
  · rw [hok]
    omega
  · simp only [reservedCount, hfind2]
    rw [Option.map_some']
    congr 1
    omega

theorem concurrent_creates_fill_to_capacity_witness :
    (runCreates 5 3 (createEvent exInit 3 400 2) ["A", "B", "C"]).1.countP
        isOkResult = 2 ∧
    (runCreates 5 3 (createEvent exInit 3 400 2) ["A", "B", "C"]).1.countP
        (fun x => x == Except.error RErr.full) = 3 - 2 ∧
    reservedCount (runCreates 5 3 (createEvent exInit 3 400 2) ["A", "B", "C"]).2 3 =
      some ((2 : Nat) : Int) :=
  concurrent_creates_fill_to_capacity (createEvent exInit 3 400 2) 5 3
    ["A", "B", "C"]
    { id := 3, date := 400, capacity := 2, currentAttendees := 0, attendees := [] }
    (by decide) (by decide) (by decide) (by decide) (by decide) (by decide)
